import Mathlib

/-!
Verification of the Prospect Discovery Pipeline (prospect_research module).

This file gives a shallow embedding of the pipeline's core functions —
the address normalizer, the persistence-payload builder, the fuzzy
deduplicator, the adapters' filtering loops and the orchestrator's
fetch/dedup/persist phases — and proves the specification's claims
about them.  Python strings are modelled as Lean `String`/`List Char`,
Python `None` as `Option`, external effects (network, the system of
record) as explicit oracle parameters, and the relevant regular
expressions are unfolded into executable character-level functions.
-/

namespace BD

/-! ## Python string primitives -/

/-- Characters the Python `str.strip()` / `\s` class treats as whitespace
(ASCII range, which is all this code base ever sees). -/
def isPySpace (c : Char) : Bool :=
  c == ' ' || c == '\t' || c == '\n' || c == '\r' ||
  c == Char.ofNat 11 || c == Char.ofNat 12

/-- Python `str.strip()` on a character list. -/
def pyStrip (cs : List Char) : List Char :=
  ((cs.dropWhile isPySpace).reverse.dropWhile isPySpace).reverse

/-- Python `str.strip()` on a `String`. -/
def pyStripStr (s : String) : String :=
  String.mk (pyStrip s.toList)

/-- Python `str.lower()` (ASCII). -/
def pyLower (s : String) : String :=
  String.mk (s.toList.map Char.toLower)

/-- Membership test for the regex class `[A-Z]`. -/
def isUpperAZ (c : Char) : Bool :=
  65 ≤ c.toNat && c.toNat ≤ 90

/-- Membership test for the regex class `[0-9]` (`\d`). -/
def isDigit09 (c : Char) : Bool :=
  48 ≤ c.toNat && c.toNat ≤ 57

/-- Does `pat` occur at the head of `s`?  (`startswith`) -/
def startsWithL : List Char → List Char → Bool
  | [], _ => true
  | _ :: _, [] => false
  | p :: ps, c :: cs => p == c && startsWithL ps cs

/-- Python's `pat in s` substring test on character lists. -/
def hasSubL (pat : List Char) : List Char → Bool
  | [] => startsWithL pat []
  | c :: cs => startsWithL pat (c :: cs) || hasSubL pat cs

/-- Python `pat in s` on strings (exact, case-sensitive). -/
def pyContains (s pat : String) : Bool :=
  hasSubL pat.toList s.toList

/-- Python `str.split(",")`: splits on every comma and keeps empty pieces,
so the result is always non-empty (`"".split(",") == [""]`). -/
def splitComma : List Char → List (List Char)
  | [] => [[]]
  | c :: cs =>
      if c == ',' then [] :: splitComma cs
      else
        match splitComma cs with
        | [] => [[c]]
        | p :: ps => (c :: p) :: ps

/-! ## Address parsing (`normalizer.parse_google_address`) -/

/-- The alternatives of the trailing-country regex
`,?\s*(USA|United States|US)\s*$`. -/
def countryToks : List (List Char) :=
  ["USA".toList, "United States".toList, "US".toList]

/-- Does `cs` consist of one country token followed only by whitespace? -/
def tokThenSpacesEnd (cs : List Char) : Bool :=
  countryToks.any fun tok =>
    startsWithL tok cs && (cs.drop tok.length).all isPySpace

/-- Does `cs` match `\s*(USA|United States|US)\s*$` entirely? -/
def tokAfterSpaces (cs : List Char) : Bool :=
  tokThenSpacesEnd (cs.dropWhile isPySpace)

/-- Does `cs` match `,?\s*(USA|United States|US)\s*$` entirely
(both choices for the optional comma, as regex backtracking would try)? -/
def countryMatchAt (cs : List Char) : Bool :=
  (match cs with
   | ',' :: t => tokAfterSpaces t
   | _ => false) ||
  tokAfterSpaces cs

/-- The effect of `re.sub(r",?\s*(USA|United States|US)\s*$", "", s)`:
delete the suffix starting at the leftmost position from which the
anchored pattern matches through to the end of the string. -/
def stripCountry : List Char → List Char
  | [] => []
  | c :: cs => if countryMatchAt (c :: cs) then [] else c :: stripCountry cs

/-- Greedy parse of the optional regex group `(\d{5}(?:-\d{4})?)?`
at the head of `cs` (`None` when the group matches nothing). -/
def zipGroup (cs : List Char) : Option String :=
  let d5 := cs.take 5
  if d5.length == 5 && d5.all isDigit09 then
    match cs.drop 5 with
    | '-' :: r =>
        let d4 := r.take 4
        if d4.length == 4 && d4.all isDigit09 then
          some (String.mk (d5 ++ '-' :: d4))
        else some (String.mk d5)
    | _ => some (String.mk d5)
  else none

/-- The effect of `re.match(r"([A-Z]{2})\s*(\d{5}(?:-\d{4})?)?", s)`:
`some (group1, group2)` when the (start-anchored, not end-anchored)
pattern matches, `none` otherwise. -/
def matchStateZip : List Char → Option (String × Option String)
  | a :: b :: rest =>
      if isUpperAZ a && isUpperAZ b then
        some (String.mk [a, b], zipGroup (rest.dropWhile isPySpace))
      else none
  | _ => none

/-- The four-key result dict of `parse_google_address`
(`street`, `city`, `state_code`, `zip`; each value `None` or a string). -/
structure ParsedAddress where
  street : Option String
  city : Option String
  state_code : Option String
  zip : Option String
deriving DecidableEq, Repr

/-- The all-`None` initial result dict. -/
def emptyParsed : ParsedAddress := ⟨none, none, none, none⟩

/-- Fill `state_code`/`zip` from the state/zip token, as the final
`re.match` block of `parse_google_address` does. -/
def applyStateZip (res : ParsedAddress) (tok : String) : ParsedAddress :=
  match matchStateZip (pyStrip tok.toList) with
  | some (st, z) => { res with state_code := some st, zip := z }
  | none => res

/-- The comma-separated, stripped parts of the address after the trailing
country token has been removed. -/
def addressParts (formatted_address : String) : List String :=
  (splitComma (pyStrip (stripCountry formatted_address.toList))).map
    (fun p => String.mk (pyStrip p))

/-- Shallow embedding of `normalizer.parse_google_address`. -/
def parse_google_address (formatted_address : String) : ParsedAddress :=
  if formatted_address = "" then emptyParsed
  else
    match addressParts formatted_address with
    | p0 :: p1 :: p2 :: _ =>
        applyStateZip { emptyParsed with street := some p0, city := some p1 } p2
    | [p0, p1] =>
        applyStateZip { emptyParsed with city := some p0 } p1
    | [p0] => { emptyParsed with city := some p0 }
    | [] => emptyParsed

example :
    parse_google_address "123 Main St, Syracuse, NY 13202, USA" =
      ⟨some "123 Main St", some "Syracuse", some "NY", some "13202"⟩ := by
  decide

example :
    parse_google_address "Rochester, NY, USA" =
      ⟨none, some "Rochester", some "NY", none⟩ := by
  decide

example :
    parse_google_address "1 Trade Ctr, New York, NY 10007-0001, USA" =
      ⟨some "1 Trade Ctr", some "New York", some "NY", some "10007-0001"⟩ := by
  decide

example : parse_google_address "" = ⟨none, none, none, none⟩ := by decide

/-! ## Fuzzy matching (`thefuzz.fuzz.token_sort_ratio`) -/

/-- Membership test for alphanumeric ASCII characters (the characters the
fuzzy matcher's default preprocessing keeps). -/
def isAlnumAscii (c : Char) : Bool :=
  (97 ≤ c.toLower.toNat && c.toLower.toNat ≤ 122) || isDigit09 c

/-- One character of the fuzzy preprocessing: lowercase alphanumerics,
everything else becomes a space. -/
def procChar (c : Char) : Char :=
  if isAlnumAscii c then c.toLower else ' '

/-- Split on whitespace runs, dropping empty pieces (Python `str.split()`). -/
def wordsAux : List Char → List Char → List (List Char)
  | [], acc => if acc.isEmpty then [] else [acc.reverse]
  | c :: cs, acc =>
      if isPySpace c then
        if acc.isEmpty then wordsAux cs [] else acc.reverse :: wordsAux cs []
      else wordsAux cs (c :: acc)

/-- Python `str.split()` (no argument form). -/
def pyWords (cs : List Char) : List (List Char) :=
  wordsAux cs []

/-- Lexicographic comparison on character lists, by code point
(Python `<=` on strings). -/
def lexLe : List Char → List Char → Bool
  | [], _ => true
  | _ :: _, [] => false
  | x :: xs, y :: ys =>
      if x.toNat < y.toNat then true
      else if y.toNat < x.toNat then false
      else lexLe xs ys

/-- Insert into a lexicographically sorted list of tokens. -/
def insertTok (a : List Char) : List (List Char) → List (List Char)
  | [] => [a]
  | b :: bs => if lexLe a b then a :: b :: bs else b :: insertTok a bs

/-- Sort tokens ascending (Python `sorted`). -/
def sortToks (l : List (List Char)) : List (List Char) :=
  l.foldr insertTok []

/-- Join tokens with single spaces (`" ".join`). -/
def joinSp : List (List Char) → List Char
  | [] => []
  | [w] => w
  | w :: ws => w ++ ' ' :: joinSp ws

/-- The token-sort preprocessing: lowercase, strip non-alphanumerics,
split into tokens, sort them, join with spaces. -/
def tokenSortProc (s : String) : List Char :=
  joinSp (sortToks (pyWords (s.toList.map procChar)))

/-- One row update of the longest-common-subsequence dynamic program:
`prev` is the previous row from column `j` on (head = diagonal cell),
`left` is the freshly computed cell to the left. -/
def lcsGo (c : Char) : List Char → List Nat → Nat → List Nat
  | [], _, _ => []
  | b :: bs, prev, left =>
      match prev with
      | [] => []
      | diag :: rest =>
          let cur := if b == c then diag + 1 else max left (rest.headD 0)
          cur :: lcsGo c bs rest cur

/-- Length of the longest common subsequence of two character lists. -/
def lcsLen (a b : List Char) : Nat :=
  (a.foldl (fun row c => 0 :: lcsGo c b row 0)
    (List.replicate (b.length + 1) 0)).getLastD 0

/-- Round `n / q` to the nearest integer, ties to even
(Python 3 `round`, as applied to the similarity percentage). -/
def roundHalfEven (n q : Nat) : Nat :=
  if 2 * (n % q) < q then n / q
  else if q < 2 * (n % q) then n / q + 1
  else if n / q % 2 = 0 then n / q else n / q + 1

/-- The indel-based similarity ratio on processed strings:
`round(100 * (1 - dist / (len1 + len2)))` where
`dist = len1 + len2 - 2 * lcs`, i.e. `round(200 * lcs / (len1 + len2))`. -/
def fuzzRatioL (a b : List Char) : Nat :=
  if a.length + b.length = 0 then 100
  else roundHalfEven (200 * lcsLen a b) (a.length + b.length)

/-- Shallow embedding of `fuzz.token_sort_ratio` (default full
preprocessing): sort the words of each string, then score. -/
def token_sort_ratio (s1 s2 : String) : Nat :=
  fuzzRatioL (tokenSortProc s1) (tokenSortProc s2)

/-- The fixed dedup threshold `FUZZY_MATCH_THRESHOLD` from
`shared/odoo_client.py`. -/
def FUZZY_MATCH_THRESHOLD : Nat := 85

/-! ## Deduplication (`OdooClient.search_duplicate`, `deduplicator`) -/

/-- The fields of an existing `crm.lead` row that the dedup query reads.
`partner_name` may be the empty string (a null column in the store). -/
structure Lead where
  partner_name : String
  city : Option String
  street : Option String
deriving DecidableEq, Repr

/-- Python `s[:n]`. -/
def pyTake (n : Nat) (s : String) : String :=
  String.mk (s.toList.take n)

/-- The Odoo `ilike` operator: case-insensitive substring containment of
the pattern in the stored value (a null column never matches). -/
def odooIlike (field : Option String) (pat : String) : Bool :=
  match field with
  | some v => pyContains (pyLower v) (pyLower pat)
  | none => false

/-- The coarse search domain of `search_duplicate`:
`partner_name ilike partner_name[:5]`, plus `city ilike city` when a
city was given. -/
def dedupDomain (partner_name : String) (city : Option String) (l : Lead) : Bool :=
  odooIlike (some l.partner_name) (pyTake 5 partner_name) &&
  (match city with
   | some ct => odooIlike l.city ct
   | none => true)

/-- Shallow embedding of `OdooClient.search_duplicate`: coarse-filter the
store (capped at 50 rows by `search_leads(limit=50)`), then keep the
candidates whose token-sort ratio against the query name reaches the
threshold. -/
def search_duplicate (store : List Lead) (partner_name : String)
    (city : Option String) : List Lead :=
  ((store.filter (dedupDomain partner_name city)).take 50).filter fun cand =>
    FUZZY_MATCH_THRESHOLD ≤
      token_sort_ratio (pyLower partner_name) (pyLower cand.partner_name)

/-! ## The canonical record (`normalizer.ProspectRecord`) -/

/-- Shallow embedding of the `ProspectRecord` dataclass (the `rating` and
`raw` debug metadata fields play no role in any claim and are omitted;
`place_id` is kept because the structured adapter dedups on it). -/
structure ProspectRecord where
  partner_name : String
  street : Option String := none
  city : Option String := none
  state_code : Option String := none
  zip : Option String := none
  country_code : String := "US"
  phone : Option String := none
  website : Option String := none
  description : Option String := none
  x_data_source : Option String := none
  x_bd_stream : Option String := none
  x_enrichment_status : String := "pending"
  x_already_importing : Option Bool := none
  x_import_source_country : Option String := none
  x_current_supplier : Option String := none
  x_property_type : Option String := none
  x_estimated_spaces : Option Int := none
  place_id : Option String := none
deriving DecidableEq, Repr

/-- A value stored in the Odoo write payload dict. -/
inductive OdooValue where
  | vs : String → OdooValue
  | vi : Int → OdooValue
  | vb : Bool → OdooValue
deriving DecidableEq, Repr

/-- Python truthiness of an optional string (`if self.field:`):
present and non-empty. -/
def optStrTruthy : Option String → Bool
  | some s => !(s == "")
  | none => false

/-- Python truthiness of an optional integer (`if state_id:`):
present and non-zero. -/
def optIntTruthy : Option Int → Bool
  | some n => !(n == 0)
  | none => false

/-- Python `str.title()` (ASCII): uppercase a letter that follows a
non-letter, lowercase a letter that follows a letter. -/
def pyTitleGo : List Char → Bool → List Char
  | [], _ => []
  | c :: cs, prevAlpha =>
      (if c.isAlpha then (if prevAlpha then c.toLower else c.toUpper) else c)
        :: pyTitleGo cs c.isAlpha

/-- Python `str.title()` on a `String`. -/
def pyTitle (s : String) : String :=
  String.mk (pyTitleGo s.toList false)

/-- Shallow embedding of `normalizer._make_lead_title`. -/
def make_lead_title (partner_name stream : String) : String :=
  partner_name ++ " — " ++ pyTitle (String.mk
    (stream.toList.map fun c => if c == '_' then ' ' else c))

/-- Shallow embedding of `ProspectRecord.to_odoo_values`: the payload dict
as an association list in Python insertion order.  Each conditional block
mirrors one `if` of the source. -/
def to_odoo_values (r : ProspectRecord) (stream : String) (stage_id : Int)
    (state_id : Option Int) (country_id : Option Int) :
    List (String × OdooValue) :=
  [("name", OdooValue.vs (make_lead_title r.partner_name stream)),
   ("partner_name", OdooValue.vs r.partner_name),
   ("stage_id", OdooValue.vi stage_id),
   ("x_bd_stream", OdooValue.vs stream),
   ("x_enrichment_status", OdooValue.vs r.x_enrichment_status)]
  ++ (if optStrTruthy r.street then [("street", OdooValue.vs (r.street.getD ""))] else [])
  ++ (if optStrTruthy r.city then [("city", OdooValue.vs (r.city.getD ""))] else [])
  ++ (if optIntTruthy state_id then [("state_id", OdooValue.vi (state_id.getD 0))] else [])
  ++ (if optStrTruthy r.zip then [("zip", OdooValue.vs (r.zip.getD ""))] else [])
  ++ (if optIntTruthy country_id then [("country_id", OdooValue.vi (country_id.getD 0))] else [])
  ++ (if optStrTruthy r.phone then [("phone", OdooValue.vs (r.phone.getD ""))] else [])
  ++ (if optStrTruthy r.website then [("website", OdooValue.vs (r.website.getD ""))] else [])
  ++ (if optStrTruthy r.description then [("description", OdooValue.vs (r.description.getD ""))] else [])
  ++ (if optStrTruthy r.x_data_source then [("x_data_source", OdooValue.vs (r.x_data_source.getD ""))] else [])
  ++ (match r.x_already_importing with
      | some b => [("x_already_importing", OdooValue.vb b)]
      | none => [])
  ++ (if optStrTruthy r.x_import_source_country then [("x_import_source_country", OdooValue.vs (r.x_import_source_country.getD ""))] else [])
  ++ (if optStrTruthy r.x_current_supplier then [("x_current_supplier", OdooValue.vs (r.x_current_supplier.getD ""))] else [])
  ++ (if optStrTruthy r.x_property_type then [("x_property_type", OdooValue.vs (r.x_property_type.getD ""))] else [])
  ++ (match r.x_estimated_spaces with
      | some n => [("x_estimated_spaces", OdooValue.vi n)]
      | none => [])

/-- Does the payload dict contain the key? -/
def hasKey (vals : List (String × OdooValue)) (k : String) : Bool :=
  vals.any fun p => p.1 == k

/-- Look up a key's value in the payload dict. -/
def lookupVal (vals : List (String × OdooValue)) (k : String) : Option OdooValue :=
  (vals.find? fun p => p.1 == k).map fun p => p.2

/-! ## Deduplicator (`deduplicator.is_duplicate`, `split_new_and_duplicate`) -/

/-- Shallow embedding of `deduplicator.is_duplicate` against a store of
existing leads.  The second component counts how many queries were issued
to the system of record (`odoo.search_duplicate` calls). -/
def is_duplicate (store : List Lead) (record : ProspectRecord)
    (match_on : List String) : Bool × Nat :=
  if pyStripStr record.partner_name = "" then (false, 0)
  else
    let city := if match_on.contains "city" then record.city else none
    let found := search_duplicate store record.partner_name city
    if found.isEmpty then (false, 1)
    else
      let found2 :=
        if match_on.contains "street" && optStrTruthy record.street then
          let street_lower := pyStripStr (pyLower (record.street.getD ""))
          found.filter fun m =>
            pyStripStr (pyLower (m.street.getD "")) == street_lower
        else found
      (!found2.isEmpty, 1)

/-- Shallow embedding of `deduplicator.split_new_and_duplicate`:
order-preserving partition into (new, duplicate). -/
def split_new_and_duplicate (store : List Lead) (records : List ProspectRecord)
    (match_on : List String) : List ProspectRecord × List ProspectRecord :=
  match records with
  | [] => ([], [])
  | r :: rs =>
      let (n, d) := split_new_and_duplicate store rs match_on
      if (is_duplicate store r match_on).1 then (n, r :: d) else (r :: n, d)

/-! ## Structured-API adapter filtering (`GoogleMapsAdapter.fetch`) -/

/-- The in-run dedup key of a fetched record:
`rec.place_id or rec.partner_name.lower()` (Python truthiness, so an
absent or empty `place_id` falls back to the lower-cased name). -/
def gmPlaceKey (r : ProspectRecord) : String :=
  match r.place_id with
  | some pid => if pid == "" then pyLower r.partner_name else pid
  | none => pyLower r.partner_name

/-- The exclusion test of `GoogleMapsAdapter.fetch`:
`any(op in name_lower for op in exclude_operators)`, where the operator
fragments have already been lower-cased when the profile was read. -/
def gmExcluded (excludeOpsLower : List String) (name : String) : Bool :=
  excludeOpsLower.any fun op => pyContains (pyLower name) op

/-- The per-record accept loop of `GoogleMapsAdapter.fetch`: skip a record
whose dedup key was already seen, then skip it if the exclusion filter
fires, otherwise emit it. -/
def gmFilterLoop (excludeOpsLower : List String) :
    List ProspectRecord → List String → List ProspectRecord
  | [], _ => []
  | r :: rs, seen =>
      let pid := gmPlaceKey r
      if seen.contains pid then gmFilterLoop excludeOpsLower rs seen
      else
        if !excludeOpsLower.isEmpty && gmExcluded excludeOpsLower r.partner_name then
          gmFilterLoop excludeOpsLower rs (pid :: seen)
        else r :: gmFilterLoop excludeOpsLower rs (pid :: seen)

/-- The record-filtering pipeline of `GoogleMapsAdapter.fetch`, applied to
the stream of records the text searches produced, with the raw
`exclude_operators` profile entries (lower-cased on read, as in the
source). -/
def gmFetchFilter (profileExcludeOps : List String)
    (records : List ProspectRecord) : List ProspectRecord :=
  gmFilterLoop (profileExcludeOps.map pyLower) records []

/-! ## Scraped-source adapter URL cache (`TradeDataAdapter._get_cached`) -/

/-- The mutable state of the scraped-source adapter relevant to caching:
the URL → HTML response cache, plus a log of the URLs actually requested
over the network (in order). -/
structure FetchState where
  cache : List (String × String)
  netLog : List String
deriving DecidableEq, Repr

/-- Cache lookup (`if url in self._url_cache`). -/
def lookupCache (cache : List (String × String)) (url : String) : Option String :=
  (cache.find? fun p => p.1 == url).map fun p => p.2

/-- Shallow embedding of `TradeDataAdapter._get_cached`.  The network is
an oracle `net : url → Option html` (`none` = the request raises
`RequestException`).  A hit is served from the cache; a successful fetch
is cached; a failed fetch returns `none` and is **not** cached. -/
def get_cached (net : String → Option String) (s : FetchState) (url : String) :
    Option String × FetchState :=
  match lookupCache s.cache url with
  | some html => (some html, s)
  | none =>
      match net url with
      | some html => (some html, ⟨(url, html) :: s.cache, s.netLog ++ [url]⟩)
      | none => (none, ⟨s.cache, s.netLog ++ [url]⟩)

/-- Run a sequence of `_get_cached` lookups (the lookups one `fetch`
invocation performs, in order) threading the adapter state. -/
def runLookups (net : String → Option String) :
    List String → FetchState → FetchState
  | [], s => s
  | u :: us, s => runLookups net us (get_cached net s u).2

/-! ## Orchestrator (`main.run`) -/

/-- One registered adapter's run, as the orchestrator boundary sees it:
whether it is enabled for the stream, and either the record list its
`fetch` returned or the exception it raised. -/
abbrev AdapterRun : Type := Bool × Except String (List ProspectRecord)

/-- The fetch-aggregation loop of `main.run`: disabled adapters are
skipped, a raised exception is caught and contributes nothing, a
successful fetch has its records appended in order. -/
def gatherRecords : List AdapterRun → List ProspectRecord
  | [] => []
  | (enabled, result) :: rest =>
      (if enabled then
        match result with
        | Except.ok recs => recs
        | Except.error _ => []
       else []) ++ gatherRecords rest

/-- The counters of the lead-creation loop of `main.run`, plus a ghost
count of how many `odoo.create_lead` calls (creation attempts) occurred. -/
structure PersistCounts where
  created : Nat
  skipped_limit : Nat
  errors : Nat
  attempts : Nat
deriving DecidableEq, Repr

/-- The cap test `limit is not None and created >= limit`. -/
def limitReached (limit : Option Nat) (created : Nat) : Bool :=
  match limit with
  | some l => l ≤ created
  | none => false

/-- The lead-creation loop of `main.run`: a record is skipped-by-limit
once the cap is reached; otherwise in dry-run mode it counts as created
without an attempt; otherwise `create_lead` is attempted, with the
oracle `createOk` (indexed by attempt number) deciding success (counted
as created) or an exception (caught and counted as an error). -/
def persistLoop (limit : Option Nat) (dry_run : Bool) (createOk : Nat → Bool) :
    List ProspectRecord → PersistCounts → PersistCounts
  | [], acc => acc
  | _ :: rest, acc =>
      if limitReached limit acc.created then
        persistLoop limit dry_run createOk rest
          { acc with skipped_limit := acc.skipped_limit + 1 }
      else if dry_run then
        persistLoop limit dry_run createOk rest
          { acc with created := acc.created + 1 }
      else if createOk acc.attempts then
        persistLoop limit dry_run createOk rest
          { acc with created := acc.created + 1, attempts := acc.attempts + 1 }
      else
        persistLoop limit dry_run createOk rest
          { acc with errors := acc.errors + 1, attempts := acc.attempts + 1 }

/-- The summary dict `main.run` returns, plus the ghost attempt count. -/
structure RunSummary where
  total_fetched : Nat
  created : Nat
  skipped_dedup : Nat
  skipped_limit : Nat
  errors : Nat
  attempts : Nat
deriving DecidableEq, Repr

/-- Shallow embedding of `main.run` from aggregation on: the early return
when nothing was fetched, the dedup partition against the store, and the
bounded creation loop producing the summary. -/
def runModel (store : List Lead) (match_on : List String)
    (limit : Option Nat) (dry_run : Bool) (createOk : Nat → Bool)
    (all_records : List ProspectRecord) : RunSummary :=
  if all_records.isEmpty then ⟨0, 0, 0, 0, 0, 0⟩
  else
    let nd := split_new_and_duplicate store all_records match_on
    let pc := persistLoop limit dry_run createOk nd.1 ⟨0, 0, 0, 0⟩
    ⟨all_records.length, pc.created, nd.2.length, pc.skipped_limit,
      pc.errors, pc.attempts⟩

/-! ## Helper lemmas -/

/-- Key membership distributes over payload concatenation. -/
theorem hasKey_append (a b : List (String × OdooValue)) (k : String) :
    hasKey (a ++ b) k = (hasKey a k || hasKey b k) := by
  simp [hasKey]

/-- Key membership distributes over a conditional payload block. -/
theorem hasKey_ite {c : Prop} [Decidable c] (a b : List (String × OdooValue))
    (k : String) :
    hasKey (if c then a else b) k = if c then hasKey a k else hasKey b k := by
  split <;> rfl

/-- `find?` distributes over list concatenation. -/
theorem findq_append (p : String × OdooValue → Bool)
    (a b : List (String × OdooValue)) :
    (a ++ b).find? p = ((a.find? p).orElse fun _ => b.find? p) := by
  induction a with
  | nil => simp
  | cons x xs ih => by_cases h : p x <;> simp [List.find?_cons, h, ih]

/-- Value lookup distributes over payload concatenation. -/
theorem lookupVal_append (a b : List (String × OdooValue)) (k : String) :
    lookupVal (a ++ b) k =
      ((lookupVal a k).orElse fun _ => lookupVal b k) := by
  simp only [lookupVal, findq_append]
  cases a.find? fun p => p.1 == k <;> simp

/-- Value lookup distributes over a conditional payload block. -/
theorem lookupVal_ite {c : Prop} [Decidable c] (a b : List (String × OdooValue))
    (k : String) :
    lookupVal (if c then a else b) k =
      if c then lookupVal a k else lookupVal b k := by
  split <;> rfl

/-! ## C7 -/

/-- C7: a candidate whose company name is empty or whitespace-only is
classified "not a duplicate" and no query is issued to the system of
record (the query count of `is_duplicate` is 0). -/
theorem c7_blank_name_short_circuits (store : List Lead)
    (record : ProspectRecord) (match_on : List String)
    (h : pyStripStr record.partner_name = "") :
    is_duplicate store record match_on = (false, 0) := by
  unfold is_duplicate
  simp [h]

/-- Witness for C7 at a whitespace-only company name. -/
theorem c7_blank_name_short_circuits_witness :
    pyStripStr "   " = "" ∧
      is_duplicate [⟨"Acme Bakery Incorporated", some "Syracuse", none⟩]
        { partner_name := "   " } ["partner_name", "city"] = (false, 0) :=
  ⟨by decide,
   c7_blank_name_short_circuits _ _ _ (by decide)⟩

/-! ## C8 -/

/-- C8: an adapter whose `fetch` raises is caught at the orchestrator
boundary and contributes zero records, while the aggregated record list
still contains exactly the records of the adapters before and after it,
in order. -/
theorem c8_adapter_failure_isolated (pre post : List AdapterRun)
    (msg : String) :
    gatherRecords (pre ++ (true, Except.error msg) :: post) =
      gatherRecords pre ++ gatherRecords post := by
  induction pre with
  | nil => simp [gatherRecords]
  | cons a rest ih =>
      obtain ⟨enabled, result⟩ := a
      simp [gatherRecords, ih]

/-! ## C10 -/

/-- C10: `parse_google_address` is total, always yields the four-field
result record (`street`, `city`, `state_code`, `zip` — totality and the
fixed key set are inherent in the embedding's return type), and never
returns a postal code without a recognized state code. -/
theorem c10_zip_requires_state (addr : String) :
    (parse_google_address addr).zip.isSome = true →
    (parse_google_address addr).state_code.isSome = true := by
  unfold parse_google_address
  split
  · intro h
    simp [emptyParsed] at h
  · split
    all_goals
      first
      | (unfold applyStateZip
         split
         · intro _
           simp
         · intro h
           simp [emptyParsed] at h)
      | (intro h
         simp [emptyParsed] at h)

/-- Witness for C10 at an address carrying a zip code. -/
theorem c10_zip_requires_state_witness :
    (parse_google_address "123 Main St, Syracuse, NY 13202, USA").state_code.isSome
      = true :=
  c10_zip_requires_state _ (by decide)

/-! ## C2 -/

/-- C2 counterexample: the configured fragment "Example Operator"
case-insensitively CONTAINS the result name "Example Oper" (the
"is contained by" direction of the claim), yet the adapter keeps the
record — the exclusion filter only tests fragment-inside-name. -/
theorem c2_exclude_filter_counterexample :
    pyContains (pyLower "Example Operator") (pyLower "Example Oper") = true ∧
      gmFetchFilter ["Example Operator"]
        [{ partner_name := "Example Oper", place_id := some "p1" }] =
        [{ partner_name := "Example Oper", place_id := some "p1" }] :=
  ⟨by decide, by decide⟩

/-- C2 (amended): a structured-API result is dropped by the exclusion
filter exactly when its name case-insensitively contains some configured
fragment (containment in that one direction only); in particular the
configured exclusion "Example Operator" drops a result named
"Example Operator - Downtown". -/
theorem c2_exclude_filter_amended :
    (∀ (ops : List String) (r : ProspectRecord),
      (gmFetchFilter ops [r] = [] ↔
        ∃ op ∈ ops, pyContains (pyLower r.partner_name) (pyLower op) = true)) ∧
      gmFetchFilter ["Example Operator"]
        [{ partner_name := "Example Operator - Downtown",
           place_id := some "p2" }] = [] := by
  constructor
  · intro ops r
    cases ops with
    | nil => simp [gmFetchFilter, gmFilterLoop]
    | cons o os =>
        simp only [gmFetchFilter, gmFilterLoop, gmExcluded, List.map_cons,
          List.contains_nil, Bool.false_eq_true, if_false, List.isEmpty_cons,
          Bool.not_false, Bool.true_and]
        constructor
        · intro h
          by_cases hex :
              ((pyLower o :: os.map pyLower).any fun op =>
                pyContains (pyLower r.partner_name) op) = true
          · rcases List.any_eq_true.mp hex with ⟨op, hmem, hp⟩
            rcases List.mem_cons.mp hmem with rfl | hmem2
            · exact ⟨o, List.mem_cons_self o os, hp⟩
            · rcases List.mem_map.mp hmem2 with ⟨op0, hop0, rfl⟩
              exact ⟨op0, List.mem_cons_of_mem o hop0, hp⟩
          · simp [hex] at h
        · rintro ⟨op, hmem, hp⟩
          have hex : ((pyLower o :: os.map pyLower).any fun op =>
              pyContains (pyLower r.partner_name) op) = true := by
            apply List.any_eq_true.mpr
            rcases List.mem_cons.mp hmem with rfl | hmem2
            · exact ⟨pyLower op, List.mem_cons_self _ _, hp⟩
            · exact ⟨pyLower op,
                List.mem_cons_of_mem _ (List.mem_map_of_mem pyLower hmem2), hp⟩
          simp [hex]
  · decide

/-! ## C4 -/

/-- A conditional single-key payload block contains `k` iff the condition
holds and the keys agree. -/
theorem hasKey_one (c : Prop) [Decidable c] (k0 : String) (v : OdooValue)
    (k : String) :
    hasKey (if c then [(k0, v)] else []) k = if c then (k0 == k) else false := by
  split <;> simp [hasKey]

/-- Key membership in the `x_already_importing` payload block. -/
theorem hasKey_importing (o : Option Bool) (k : String) :
    hasKey (match o with
            | some b => [("x_already_importing", OdooValue.vb b)]
            | none => []) k
      = (o.isSome && ("x_already_importing" == k)) := by
  cases o <;> simp [hasKey]

/-- Key membership in the `x_estimated_spaces` payload block. -/
theorem hasKey_spaces (o : Option Int) (k : String) :
    hasKey (match o with
            | some n => [("x_estimated_spaces", OdooValue.vi n)]
            | none => []) k
      = (o.isSome && ("x_estimated_spaces" == k)) := by
  cases o <;> simp [hasKey]

/-- Value lookup in the `x_already_importing` payload block. -/
theorem lookupVal_importing (o : Option Bool) (k : String) :
    lookupVal (match o with
               | some b => [("x_already_importing", OdooValue.vb b)]
               | none => []) k
      = if ("x_already_importing" == k) = true then o.map OdooValue.vb
        else none := by
  cases o <;> simp [lookupVal, List.find?] <;> split <;> simp_all

/-- Value lookup in the `x_estimated_spaces` payload block. -/
theorem lookupVal_spaces (o : Option Int) (k : String) :
    lookupVal (match o with
               | some n => [("x_estimated_spaces", OdooValue.vi n)]
               | none => []) k
      = if ("x_estimated_spaces" == k) = true then o.map OdooValue.vi
        else none := by
  cases o <;> simp [lookupVal, List.find?] <;> split <;> simp_all

/-- Boolean/propositional `if` elimination used to normalize the payload
membership conditions. -/
theorem ite_true_false (c : Bool) : (if c = true then true else false) = c := by
  cases c <;> simp

set_option maxHeartbeats 1600000 in
/-- C4: the persistence payload contains a key for an optional field
exactly when the field carries a present (truthy / non-`None`) value:
unset fields are omitted entirely, never written as empty or null; the
boolean attribute `x_already_importing` is keyed whenever it is set —
explicitly-`false` included, with value `false` — and omitted when never
set. -/
theorem c4_payload_presence (r : ProspectRecord) (stream : String)
    (stage_id : Int) (state_id country_id : Option Int) :
    hasKey (to_odoo_values r stream stage_id state_id country_id) "street"
      = optStrTruthy r.street ∧
    hasKey (to_odoo_values r stream stage_id state_id country_id) "city"
      = optStrTruthy r.city ∧
    hasKey (to_odoo_values r stream stage_id state_id country_id) "zip"
      = optStrTruthy r.zip ∧
    hasKey (to_odoo_values r stream stage_id state_id country_id) "phone"
      = optStrTruthy r.phone ∧
    hasKey (to_odoo_values r stream stage_id state_id country_id) "website"
      = optStrTruthy r.website ∧
    hasKey (to_odoo_values r stream stage_id state_id country_id) "description"
      = optStrTruthy r.description ∧
    hasKey (to_odoo_values r stream stage_id state_id country_id) "x_data_source"
      = optStrTruthy r.x_data_source ∧
    hasKey (to_odoo_values r stream stage_id state_id country_id)
        "x_import_source_country" = optStrTruthy r.x_import_source_country ∧
    hasKey (to_odoo_values r stream stage_id state_id country_id)
        "x_current_supplier" = optStrTruthy r.x_current_supplier ∧
    hasKey (to_odoo_values r stream stage_id state_id country_id)
        "x_property_type" = optStrTruthy r.x_property_type ∧
    hasKey (to_odoo_values r stream stage_id state_id country_id) "state_id"
      = optIntTruthy state_id ∧
    hasKey (to_odoo_values r stream stage_id state_id country_id) "country_id"
      = optIntTruthy country_id ∧
    hasKey (to_odoo_values r stream stage_id state_id country_id)
        "x_estimated_spaces" = r.x_estimated_spaces.isSome ∧
    hasKey (to_odoo_values r stream stage_id state_id country_id)
        "x_already_importing" = r.x_already_importing.isSome ∧
    lookupVal (to_odoo_values r stream stage_id state_id country_id)
        "x_already_importing" = r.x_already_importing.map OdooValue.vb := by
  refine ⟨?_, ?_, ?_, ?_, ?_, ?_, ?_, ?_, ?_, ?_, ?_, ?_, ?_, ?_, ?_⟩ <;>
    simp only [to_odoo_values, hasKey_append, hasKey_one, hasKey_importing,
      hasKey_spaces, lookupVal_append, lookupVal_ite, lookupVal_importing,
      lookupVal_spaces]
  all_goals simp [hasKey, lookupVal, ite_true_false]

/-! ## C5 -/

/-- The spec's reading of the state/zip token: parse it with the
two-letter-code plus optional 5-digit(+4) regex, yielding (state, zip). -/
def specStateZip (tok : String) : Option String × Option String :=
  match matchStateZip (pyStrip tok.toList) with
  | some (st, z) => (some st, z)
  | none => (none, none)

/-- The spec's component assignment by comma-part count: 3+ parts means
street/city/state-zip, 2 parts means city/state-zip, 1 part means city
only. -/
def specAssignByPartCount (parts : List String) : ParsedAddress :=
  if 3 ≤ parts.length then
    ⟨some (parts.getD 0 ""), some (parts.getD 1 ""),
     (specStateZip (parts.getD 2 "")).1, (specStateZip (parts.getD 2 "")).2⟩
  else if parts.length = 2 then
    ⟨none, some (parts.getD 0 ""),
     (specStateZip (parts.getD 1 "")).1, (specStateZip (parts.getD 1 "")).2⟩
  else if parts.length = 1 then
    ⟨none, some (parts.getD 0 ""), none, none⟩
  else emptyParsed

/-- C5: the address parser strips the trailing country token, splits on
commas, and assigns components by part count exactly as the spec
describes, and the two reference addresses parse to the stated
components. -/
theorem c5_address_parsing :
    parse_google_address "123 Main St, Syracuse, NY 13202, USA" =
      ⟨some "123 Main St", some "Syracuse", some "NY", some "13202"⟩ ∧
    parse_google_address "Rochester, NY, USA" =
      ⟨none, some "Rochester", some "NY", none⟩ ∧
    ∀ addr : String, parse_google_address addr =
      if addr = "" then emptyParsed
      else specAssignByPartCount (addressParts addr) := by
  refine ⟨by decide, by decide, ?_⟩
  intro addr
  unfold parse_google_address
  split
  · rfl
  · cases h : addressParts addr with
    | nil => simp [specAssignByPartCount, emptyParsed]
    | cons p0 rest =>
      cases rest with
      | nil => simp [specAssignByPartCount, emptyParsed]
      | cons p1 rest2 =>
        cases rest2 with
        | nil =>
            simp only [specAssignByPartCount, applyStateZip, List.length_cons,
              List.length_nil, emptyParsed]
            cases hm : matchStateZip (pyStrip p1.toList) with
            | none =>
                simp only [String.toList] at hm
                simp [specStateZip, hm]
            | some sz =>
                obtain ⟨st, z⟩ := sz
                simp only [String.toList] at hm
                simp [specStateZip, hm]
        | cons p2 rest3 =>
            simp only [specAssignByPartCount, applyStateZip, List.length_cons,
              emptyParsed]
            have h3 : 3 ≤ rest3.length + 1 + 1 + 1 := by omega
            cases hm : matchStateZip (pyStrip p2.toList) with
            | none =>
                simp only [String.toList] at hm
                simp [specStateZip, hm, h3]
            | some sz =>
                obtain ⟨st, z⟩ := sz
                simp only [String.toList] at hm
                simp [specStateZip, hm, h3]

/-! ## C3 -/

/-- One `_get_cached` call preserves the cache soundness invariant for a
URL the network can serve: the URL has been requested at most once, and
if it has been requested it is now cached. -/
theorem get_cached_preserves (net : String → Option String) (u : String)
    (h : (net u).isSome = true) (s : FetchState) (v : String)
    (h1 : s.netLog.count u ≤ 1)
    (h2 : 1 ≤ s.netLog.count u → (lookupCache s.cache u).isSome = true) :
    ((get_cached net s v).2.netLog.count u ≤ 1) ∧
      (1 ≤ (get_cached net s v).2.netLog.count u →
        (lookupCache (get_cached net s v).2.cache u).isSome = true) := by
  unfold get_cached
  cases hl : lookupCache s.cache v with
  | some html => exact ⟨h1, h2⟩
  | none =>
    cases hn : net v with
    | some html =>
        by_cases hv : v = u
        · subst hv
          have hc0 : s.netLog.count v = 0 := by
            by_contra hne
            have hge : 1 ≤ s.netLog.count v := by omega
            have := h2 hge
            rw [hl] at this
            simp at this
          constructor
          · simp [List.count_append, hc0]
          · intro _
            simp [lookupCache, List.find?]
        · constructor
          · have : List.count u [v] = 0 := by
              simp [List.count_cons]
              exact hv
            simpa [List.count_append, this] using h1
          · intro hcount
            have hcount0 : 1 ≤ s.netLog.count u := by
              have : List.count u [v] = 0 := by
                simp [List.count_cons]
                exact hv
              simpa [List.count_append, this] using hcount
            have hsome := h2 hcount0
            have hvu : (v == u) = false := by
              simp [hv]
            simpa [lookupCache, List.find?, hvu] using hsome
    | none =>
        by_cases hv : v = u
        · subst hv
          rw [hn] at h
          simp at h
        · have hz : List.count u [v] = 0 := by
            simp [List.count_cons]
            exact hv
          constructor
          · simpa [List.count_append, hz] using h1
          · intro hcount
            exact h2 (by simpa [List.count_append, hz] using hcount)

/-- The cache soundness invariant is preserved across any sequence of
lookups, so a servable URL is requested over the network at most once. -/
theorem runLookups_count_le (net : String → Option String) (u : String)
    (h : (net u).isSome = true) :
    ∀ (urls : List String) (s : FetchState),
      s.netLog.count u ≤ 1 →
      (1 ≤ s.netLog.count u → (lookupCache s.cache u).isSome = true) →
      (runLookups net urls s).netLog.count u ≤ 1 := by
  intro urls
  induction urls with
  | nil => intro s h1 _; exact h1
  | cons v vs ih =>
      intro s h1 h2
      have H := get_cached_preserves net u h s v h1 h2
      exact ih _ H.1 H.2

/-- C3 (amended): within one fetch invocation a URL that the network can
serve is fetched over the network at most once — every repeated lookup of
it is served from the session cache.  (A URL whose fetch raises is not
cached, so only failing URLs can be requested again.) -/
theorem c3_url_cache_amended (net : String → Option String)
    (urls : List String) (u : String) (h : (net u).isSome = true) :
    ((runLookups net urls ⟨[], []⟩).netLog.count u) ≤ 1 :=
  runLookups_count_le net u h urls ⟨[], []⟩ (by simp) (by simp)

/-- A network oracle that serves the fallback search URL. -/
def goodNet : String → Option String := fun url =>
  if url == "https://www.your-trade-data-service.com/search?q=3923.30" then
    some "<html><body></body></html>"
  else none

/-- Witness for C3 (amended): two lookups of the same servable URL issue
at most one network request. -/
theorem c3_url_cache_amended_witness :
    ((runLookups goodNet
        ["https://www.your-trade-data-service.com/search?q=3923.30",
         "https://www.your-trade-data-service.com/search?q=3923.30"]
        ⟨[], []⟩).netLog.count
      "https://www.your-trade-data-service.com/search?q=3923.30") ≤ 1 :=
  c3_url_cache_amended goodNet _ _ (by decide)

/-- A network oracle on which every request raises. -/
def downNet : String → Option String := fun _ => none

/-- An HS-code page URL. -/
def hsUrl : String := "https://www.your-trade-data-service.com/hs-code/39233000"

/-- C3 counterexample: when the first fetch of a URL fails, the failure is
not cached, so a second lookup of the exact same URL issues a second
network request — the URL is fetched twice within one run, refuting
"every URL is fetched over the network at most once". -/
theorem c3_url_cache_counterexample :
    (runLookups downNet [hsUrl, hsUrl] ⟨[], []⟩).netLog = [hsUrl, hsUrl] ∧
      (runLookups downNet [hsUrl, hsUrl] ⟨[], []⟩).netLog.count hsUrl = 2 :=
  ⟨by decide, by decide⟩

/-! ## C1 -/

/-- Closed form of the creation loop when every attempt succeeds and the
run is live (not a dry run): the cap `N` stops creation, the overflow is
skipped-by-limit, attempts equal creations, no errors. -/
theorem persistLoop_all_ok (N : Nat) (createOk : Nat → Bool)
    (hok : ∀ k, createOk k = true) :
    ∀ (recs : List ProspectRecord) (c s e a : Nat), c ≤ N →
      persistLoop (some N) false createOk recs ⟨c, s, e, a⟩ =
        ⟨N - (N - c - recs.length), s + (recs.length - (N - c)), e,
          a + ((N - c) - (N - c - recs.length))⟩ := by
  intro recs
  induction recs with
  | nil =>
      intro c s e a hc
      simp only [persistLoop, List.length_nil, PersistCounts.mk.injEq]
      refine ⟨by omega, by omega, trivial, by omega⟩
  | cons r rest ih =>
      intro c s e a hc
      rcases Nat.lt_or_ge c N with hlt | hge
      · have hn : ¬ (N ≤ c) := by omega
        have h1 : limitReached (some N) c = false := by
          simp [limitReached, hn]
        have hstep :
            persistLoop (some N) false createOk (r :: rest) ⟨c, s, e, a⟩ =
              persistLoop (some N) false createOk rest ⟨c + 1, s, e, a + 1⟩ := by
          rw [persistLoop]
          simp [h1, hok]
        rw [hstep, ih (c + 1) s e (a + 1) (by omega)]
        simp only [List.length_cons, PersistCounts.mk.injEq]
        refine ⟨by omega, by omega, trivial, by omega⟩
      · have h1 : limitReached (some N) c = true := by
          simp [limitReached, hge]
        have hstep :
            persistLoop (some N) false createOk (r :: rest) ⟨c, s, e, a⟩ =
              persistLoop (some N) false createOk rest ⟨c, s + 1, e, a⟩ := by
          rw [persistLoop]
          simp [h1]
        rw [hstep, ih c (s + 1) e a hc]
        simp only [List.length_cons, PersistCounts.mk.injEq]
        refine ⟨by omega, by omega, trivial, by omega⟩

/-- C1 (amended): with a creation cap `N`, `M > N` surviving non-duplicate
records, and every creation attempt succeeding, exactly `N` creation
attempts occur (`attempts = created = N`), the remaining `M − N`
surviving records are counted skipped-by-limit, and no errors occur —
regardless of how many records the dedup step removed. -/
theorem c1_cap_semantics_amended (store : List Lead) (match_on : List String)
    (N : Nat) (records : List ProspectRecord) (createOk : Nat → Bool)
    (hok : ∀ k, createOk k = true)
    (hM : N < (split_new_and_duplicate store records match_on).1.length) :
    (runModel store match_on (some N) false createOk records).attempts = N ∧
    (runModel store match_on (some N) false createOk records).created = N ∧
    (runModel store match_on (some N) false createOk records).skipped_limit
      = (split_new_and_duplicate store records match_on).1.length - N ∧
    (runModel store match_on (some N) false createOk records).errors = 0 := by
  have hne : records.isEmpty = false := by
    cases records with
    | nil => simp [split_new_and_duplicate] at hM
    | cons _ _ => rfl
  unfold runModel
  simp only [hne, Bool.false_eq_true, if_false]
  rw [persistLoop_all_ok N createOk hok _ 0 0 0 0 (Nat.zero_le N)]
  refine ⟨?_, ?_, ?_, ?_⟩ <;> simp <;> omega

/-- Three distinct surviving prospect records. -/
def recsC1 : List ProspectRecord :=
  [{ partner_name := "Alpha Logistics" }, { partner_name := "Beta Freight" },
   { partner_name := "Gamma Supply" }]

/-- Witness for C1 (amended): an empty store, cap 1, three survivors, all
creations succeeding: one attempt, one created, two skipped-by-limit. -/
theorem c1_cap_semantics_amended_witness :
    1 < (split_new_and_duplicate [] recsC1 ["partner_name", "city"]).1.length ∧
    ((runModel [] ["partner_name", "city"] (some 1) false (fun _ => true)
        recsC1).attempts = 1 ∧
     (runModel [] ["partner_name", "city"] (some 1) false (fun _ => true)
        recsC1).created = 1 ∧
     (runModel [] ["partner_name", "city"] (some 1) false (fun _ => true)
        recsC1).skipped_limit
       = (split_new_and_duplicate [] recsC1 ["partner_name", "city"]).1.length
          - 1 ∧
     (runModel [] ["partner_name", "city"] (some 1) false (fun _ => true)
        recsC1).errors = 0) :=
  ⟨by decide,
   c1_cap_semantics_amended [] ["partner_name", "city"] 1 recsC1 (fun _ => true)
     (fun _ => rfl) (by decide)⟩

/-- A create oracle whose first attempt raises and later attempts
succeed. -/
def failFirstCreate : Nat → Bool := fun k => !(k == 0)

/-- C1 counterexample: cap N = 1 and M = 3 surviving records, but the
first creation attempt raises: the run makes 2 creation attempts (not
exactly N = 1) and counts only 1 record skipped-by-limit (not
M − N = 2), refuting the claim as stated. -/
theorem c1_cap_semantics_counterexample :
    (split_new_and_duplicate [] recsC1 ["partner_name", "city"]).1.length = 3 ∧
    (runModel [] ["partner_name", "city"] (some 1) false failFirstCreate
        recsC1) = ⟨3, 1, 0, 1, 1, 2⟩ :=
  ⟨by decide, by decide⟩

/-! ## C9 -/

/-- The dedup partition conserves records: new plus duplicate counts equal
the input count. -/
theorem split_length_add (store : List Lead) (match_on : List String) :
    ∀ records : List ProspectRecord,
      (split_new_and_duplicate store records match_on).1.length +
        (split_new_and_duplicate store records match_on).2.length
        = records.length := by
  intro records
  induction records with
  | nil => rfl
  | cons r rest ih =>
      simp only [split_new_and_duplicate]
      cases hd : (is_duplicate store r match_on).1 <;>
        simp_all <;> omega

/-- Every record entering the creation loop is counted in exactly one of
created / skipped-by-limit / errors. -/
theorem persistLoop_sum (limit : Option Nat) (dry_run : Bool)
    (createOk : Nat → Bool) :
    ∀ (recs : List ProspectRecord) (acc : PersistCounts),
      (persistLoop limit dry_run createOk recs acc).created +
        (persistLoop limit dry_run createOk recs acc).skipped_limit +
        (persistLoop limit dry_run createOk recs acc).errors
        = acc.created + acc.skipped_limit + acc.errors + recs.length := by
  intro recs
  induction recs with
  | nil => intro acc; simp [persistLoop]
  | cons r rest ih =>
      intro acc
      rw [persistLoop]
      split
      · rw [ih]
        simp
        omega
      · split
        · rw [ih]
          simp
          omega
        · split
          · rw [ih]
            simp
            omega
          · rw [ih]
            simp
            omega

/-- C9: whenever the run proceeds past fetching (at least one record
fetched), the summary satisfies
`total_fetched = created + skipped_dedup + skipped_limit + errors`. -/
theorem c9_summary_conservation (store : List Lead) (match_on : List String)
    (limit : Option Nat) (dry_run : Bool) (createOk : Nat → Bool)
    (records : List ProspectRecord) (h : records ≠ []) :
    (runModel store match_on limit dry_run createOk records).total_fetched =
      (runModel store match_on limit dry_run createOk records).created +
      (runModel store match_on limit dry_run createOk records).skipped_dedup +
      (runModel store match_on limit dry_run createOk records).skipped_limit +
      (runModel store match_on limit dry_run createOk records).errors := by
  have hne : records.isEmpty = false := by
    cases records with
    | nil => exact absurd rfl h
    | cons _ _ => rfl
  unfold runModel
  simp only [hne, Bool.false_eq_true, if_false]
  have hsum := persistLoop_sum limit dry_run createOk
    (split_new_and_duplicate store records match_on).1 ⟨0, 0, 0, 0⟩
  have hlen := split_length_add store match_on records
  simp at hsum
  omega

/-- A single fetched record. -/
def recC9 : List ProspectRecord := [{ partner_name := "Delta Co" }]

/-- Witness for C9 on a one-record run. -/
theorem c9_summary_conservation_witness :
    (runModel [] ["city"] none false (fun _ => true) recC9).total_fetched =
      (runModel [] ["city"] none false (fun _ => true) recC9).created +
      (runModel [] ["city"] none false (fun _ => true) recC9).skipped_dedup +
      (runModel [] ["city"] none false (fun _ => true) recC9).skipped_limit +
      (runModel [] ["city"] none false (fun _ => true) recC9).errors :=
  c9_summary_conservation [] ["city"] none false (fun _ => true) recC9
    (by decide)

/-! ## C6 -/

/-- Every entry of an LCS row update is bounded by one more than a bound
on the previous row. -/
theorem lcsGo_all_le (c : Char) (K : Nat) :
    ∀ (bs : List Char) (prev : List Nat) (left : Nat),
      (∀ x ∈ prev, x ≤ K) → left ≤ K + 1 →
      ∀ x ∈ lcsGo c bs prev left, x ≤ K + 1 := by
  intro bs
  induction bs with
  | nil =>
      intro prev left _ _ x hx
      simp [lcsGo] at hx
  | cons b bs ih =>
      intro prev left h1 h2 x hx
      cases prev with
      | nil => simp [lcsGo] at hx
      | cons diag rest =>
          have hdiag : diag ≤ K := h1 diag (by simp)
          have hup : rest.headD 0 ≤ K := by
            cases rest with
            | nil => simp
            | cons y ys => simpa using h1 y (by simp)
          have hcur :
              (if b == c then diag + 1 else max left (rest.headD 0)) ≤ K + 1 := by
            split
            · omega
            · exact Nat.max_le.mpr ⟨h2, by omega⟩
          simp only [lcsGo] at hx
          rcases List.mem_cons.mp hx with rfl | hmem
          · exact hcur
          · exact ih rest _ (fun y hy => h1 y (List.mem_cons_of_mem _ hy)) hcur
              x hmem

/-- `getLastD` of a list of bounded entries is bounded. -/
theorem getLastD_le_of_all (B : Nat) :
    ∀ (l : List Nat) (d : Nat), (∀ x ∈ l, x ≤ B) → d ≤ B →
      l.getLastD d ≤ B := by
  intro l
  induction l with
  | nil => intro d _ hd; simpa using hd
  | cons a t ih =>
      intro d h hd
      rw [List.getLastD_cons]
      exact ih a (fun x hx => h x (List.mem_cons_of_mem _ hx)) (h a (by simp))

/-- Folding LCS row updates over `as` raises a row bound by at most
`as.length`. -/
theorem lcs_fold_all_le (b : List Char) :
    ∀ (as : List Char) (row : List Nat) (K : Nat), (∀ x ∈ row, x ≤ K) →
      ∀ x ∈ as.foldl (fun row c => 0 :: lcsGo c b row 0) row,
        x ≤ K + as.length := by
  intro as
  induction as with
  | nil =>
      intro row K h x hx
      simpa using h x hx
  | cons c as ih =>
      intro row K h x hx
      rw [List.foldl_cons] at hx
      have hrow : ∀ y ∈ (0 :: lcsGo c b row 0), y ≤ K + 1 := by
        intro y hy
        rcases List.mem_cons.mp hy with rfl | hm
        · omega
        · exact lcsGo_all_le c K b row 0 h (by omega) y hm
      have hb := ih (0 :: lcsGo c b row 0) (K + 1) hrow x hx
      simp only [List.length_cons]
      omega

/-- The LCS length never exceeds the first string's length. -/
theorem lcsLen_le_left (a b : List Char) : lcsLen a b ≤ a.length := by
  unfold lcsLen
  apply getLastD_le_of_all
  · intro x hx
    have h0 : ∀ y ∈ List.replicate (b.length + 1) (0 : Nat), y ≤ 0 := by
      intro y hy
      simp [List.eq_of_mem_replicate hy]
    have := lcs_fold_all_le b a (List.replicate (b.length + 1) 0) 0 h0 x hx
    omega
  · exact Nat.zero_le _

/-- Entry `k` of an LCS row update is bounded by its column index, one past
the previous row's offset. -/
theorem lcsGo_pos_le (c : Char) :
    ∀ (bs : List Char) (prev : List Nat) (left j0 : Nat),
      (∀ k x, prev.get? k = some x → x ≤ j0 + k) → left ≤ j0 →
      ∀ k x, (lcsGo c bs prev left).get? k = some x → x ≤ j0 + 1 + k := by
  intro bs
  induction bs with
  | nil => intro prev left j0 _ _ k x hx; simp [lcsGo] at hx
  | cons b bs ih =>
      intro prev left j0 h1 h2 k x hx
      cases prev with
      | nil => simp [lcsGo] at hx
      | cons diag rest =>
          have hdiag : diag ≤ j0 := by simpa using h1 0 diag (by simp)
          have hup : rest.headD 0 ≤ j0 + 1 := by
            cases rest with
            | nil => simp
            | cons y ys => simpa using h1 1 y (by simp)
          have hcur :
              (if b == c then diag + 1 else max left (rest.headD 0)) ≤ j0 + 1 := by
            split
            · omega
            · exact Nat.max_le.mpr ⟨by omega, hup⟩
          simp only [lcsGo] at hx
          cases k with
          | zero =>
              simp only [List.get?_cons_zero, Option.some.injEq] at hx
              omega
          | succ k =>
              rw [List.get?_cons_succ] at hx
              have hrest : ∀ k x, rest.get? k = some x → x ≤ (j0 + 1) + k := by
                intro k x hk
                have := h1 (k + 1) x (by simpa using hk)
                omega
              have := ih rest _ (j0 + 1) hrest hcur k x hx
              omega

/-- An LCS row update preserves the row width. -/
theorem lcsGo_length (c : Char) :
    ∀ (bs : List Char) (prev : List Nat) (left : Nat),
      bs.length + 1 ≤ prev.length →
      (lcsGo c bs prev left).length = bs.length := by
  intro bs
  induction bs with
  | nil => intro prev left _; simp [lcsGo]
  | cons b bs ih =>
      intro prev left h
      cases prev with
      | nil => simp at h
      | cons diag rest =>
          simp only [lcsGo, List.length_cons]
          rw [ih rest _ (by simp only [List.length_cons] at h; omega)]

/-- `getLastD` of a positionally bounded list is bounded by the last
column index. -/
theorem getLastD_pos_le :
    ∀ (l : List Nat) (d j0 : Nat),
      (∀ k x, l.get? k = some x → x ≤ j0 + k) → d ≤ j0 →
      l.getLastD d ≤ j0 + (l.length - 1) := by
  intro l
  induction l with
  | nil => intro d j0 _ hd; simpa using hd
  | cons a t ih =>
      intro d j0 h hd
      rw [List.getLastD_cons]
      cases t with
      | nil => simpa using h 0 a (by simp)
      | cons y ys =>
          have ht : ∀ k x, (y :: ys).get? k = some x → x ≤ (j0 + 1) + k := by
            intro k x hk
            have := h (k + 1) x (by simpa using hk)
            omega
          have ha : a ≤ j0 + 1 := by
            have := h 0 a (by simp)
            omega
          have := ih a (j0 + 1) ht ha
          simp only [List.length_cons] at this ⊢
          omega

/-- The folded LCS rows keep their width and stay bounded by their column
index. -/
theorem lcs_fold_pos (b : List Char) :
    ∀ (as : List Char) (row : List Nat),
      row.length = b.length + 1 →
      (∀ k x, row.get? k = some x → x ≤ k) →
      ((as.foldl (fun row c => 0 :: lcsGo c b row 0) row).length
          = b.length + 1 ∧
        ∀ k x,
          (as.foldl (fun row c => 0 :: lcsGo c b row 0) row).get? k = some x →
            x ≤ k) := by
  intro as
  induction as with
  | nil => intro row hlen hpos; exact ⟨hlen, hpos⟩
  | cons c as ih =>
      intro row hlen hpos
      rw [List.foldl_cons]
      apply ih
      · simp only [List.length_cons]
        rw [lcsGo_length c b row 0 (by omega)]
      · intro k x hk
        cases k with
        | zero =>
            simp only [List.get?_cons_zero, Option.some.injEq] at hk
            omega
        | succ k =>
            rw [List.get?_cons_succ] at hk
            have := lcsGo_pos_le c b row 0 0
              (fun k x h => by simpa using hpos k x h) (le_refl 0) k x hk
            omega

/-- The LCS length never exceeds the second string's length. -/
theorem lcsLen_le_right (a b : List Char) : lcsLen a b ≤ b.length := by
  unfold lcsLen
  have hrep_len : (List.replicate (b.length + 1) (0 : Nat)).length
      = b.length + 1 := by simp
  have hrep_pos :
      ∀ k x, (List.replicate (b.length + 1) (0 : Nat)).get? k = some x →
        x ≤ k := by
    intro k x hk
    have hx := List.get?_mem hk
    have := List.eq_of_mem_replicate hx
    omega
  obtain ⟨hlen, hpos⟩ := lcs_fold_pos b a _ hrep_len hrep_pos
  have hfin := getLastD_pos_le _ 0 0
    (fun k x h => by simpa using hpos k x h) (le_refl 0)
  rw [hlen] at hfin
  simpa using hfin

/-- Round-to-nearest of a fraction that is at most 100 is at most 100. -/
theorem roundHalfEven_le_100 (n q : Nat) (hq : 0 < q) (h : n ≤ 100 * q) :
    roundHalfEven n q ≤ 100 := by
  have h1 : n / q * q ≤ n := Nat.div_mul_le_self n q
  have hd100 : n / q ≤ 100 :=
    Nat.le_of_mul_le_mul_right (le_trans h1 h) hq
  have key : n / q = 100 → n % q = 0 := by
    intro h100
    have hdm := Nat.div_add_mod n q
    rw [h100] at hdm
    omega
  unfold roundHalfEven
  split
  · exact hd100
  · split
    · rcases Nat.lt_or_ge (n / q) 100 with hlt | hge2
      · omega
      · have hr := key (le_antisymm hd100 hge2)
        omega
    · split
      · exact hd100
      · rcases Nat.lt_or_ge (n / q) 100 with hlt | hge2
        · omega
        · have hr := key (le_antisymm hd100 hge2)
          omega

/-- The indel similarity ratio is at most 100. -/
theorem fuzzRatioL_le_100 (a b : List Char) : fuzzRatioL a b ≤ 100 := by
  unfold fuzzRatioL
  split
  · omega
  · next h =>
      apply roundHalfEven_le_100
      · omega
      · have h1 := lcsLen_le_left a b
        have h2 := lcsLen_le_right a b
        omega

set_option maxRecDepth 200000 in
/-- C6 (amended): the deduplicator scores every queried pair with the
token-order-insensitive ratio (which is always within 0–100) and
classifies a returned candidate as a match exactly when the ratio reaches
the fixed threshold 85; however the pair "Acme Bakery Inc" /
"Acme Bakery Incorporated" scores 77 < 85, so that candidate in the same
city is classified not-duplicate, and "Acme Bakery" /
"Totally Different Co" in the same city is likewise not-duplicate. -/
theorem c6_fuzzy_threshold_amended :
    (∀ s1 s2 : String, token_sort_ratio s1 s2 ≤ 100) ∧
    (∀ (store : List Lead) (n : String) (city : Option String) (cand : Lead),
      cand ∈ search_duplicate store n city ↔
        (cand ∈ (store.filter (dedupDomain n city)).take 50 ∧
          FUZZY_MATCH_THRESHOLD ≤
            token_sort_ratio (pyLower n) (pyLower cand.partner_name))) ∧
    token_sort_ratio (pyLower "Acme Bakery Inc")
        (pyLower "Acme Bakery Incorporated") = 77 ∧
    (is_duplicate [⟨"Acme Bakery Incorporated", some "Syracuse", none⟩]
        { partner_name := "Acme Bakery Inc", city := some "Syracuse" }
        ["partner_name", "city"]).1 = false ∧
    (is_duplicate [⟨"Totally Different Co", some "Syracuse", none⟩]
        { partner_name := "Acme Bakery", city := some "Syracuse" }
        ["partner_name", "city"]).1 = false := by
  refine ⟨?_, ?_, by decide, by decide, by decide⟩
  · intro s1 s2
    exact fuzzRatioL_le_100 _ _
  · intro store n city cand
    simp [search_duplicate, List.mem_filter]

set_option maxRecDepth 200000 in
/-- C6 counterexample: the spec's reference pair "Acme Bakery Inc" vs.
existing "Acme Bakery Incorporated" in the same city scores 77, which is
below the threshold 85, and the deduplicator classifies it
not-duplicate — refuting the claim's "scores ≥ 85 and is classified
duplicate". -/
theorem c6_fuzzy_threshold_counterexample :
    token_sort_ratio (pyLower "Acme Bakery Inc")
        (pyLower "Acme Bakery Incorporated") = 77 ∧
    ¬ (85 ≤ token_sort_ratio (pyLower "Acme Bakery Inc")
          (pyLower "Acme Bakery Incorporated")) ∧
    (is_duplicate [⟨"Acme Bakery Incorporated", some "Syracuse", none⟩]
        { partner_name := "Acme Bakery Inc", city := some "Syracuse" }
        ["partner_name", "city"]).1 = false :=
  ⟨by decide, by decide, by decide⟩

end BD


